import Mathlib

/-!
Verification of the hanzi-trainer practice-queue scheduler and multi-slot
canvas state machine, as implemented in
`src/hanzi_trainer_react_single_file_prototype.jsx`.

The JSX source is shallowly embedded:

* React `useState` state is gathered into explicit state structures
  (`TrainerState` for the main component, `SurfaceState` for `MultiCanvas`);
  each event handler becomes a pure state-transition function.
* `uuid()` (a random id) is modelled by an injected fresh-id counter:
  every call site receives the next id from an explicit `Nat` supply.
* `Math.random()` in `shuffle` is modelled by an injected stream
  `picks : Nat → Nat`; `Math.floor(Math.random() * (i + 1))`, which always
  lands in `[0, i]`, is modelled as `min (picks i) i`.
* `ctx.measureText` is modelled by an injected deterministic measure
  function `measure : Int → Int` giving the measured width of the (fixed)
  text at each font size; JS numbers are modelled as `Int`
  (`Math.floor` on an `Int` is the identity).
* JS array index reads out of range yield `undefined`; spreading
  `undefined` (`{...undefined}`) yields an object with no own fields, so
  a clone of a missing card keeps only the explicitly written fields.
  This is modelled by reading with `List.getD` against `undefinedCard`.
-/

namespace HanziTrainer

/-- One parsed vocabulary row (`type Vocab` in the source). -/
structure Vocab where
  hanzi : String
  pinyin : String
  english : String
deriving DecidableEq, Repr

/-- One queue entry (`type Card` in the source). `id` and `baseId` are the
two `uuid()` results, modelled as counter values; the optional
`scheduledShort?` / `scheduledEnd?` flags become `Bool`s that default to
`false` (absent). -/
structure Card where
  id : Nat
  baseId : Nat
  hanzi : String
  pinyin : String
  english : String
  scheduledShort : Bool := false
  scheduledEnd : Bool := false
deriving DecidableEq, Repr

/-- The result of spreading JS `undefined` (`{...cards[idx]}` when `idx` is
out of range): an object carrying none of the `Card` fields; the string
fields read back as `undefined`, modelled as `""`, the ids as `0`. -/
def undefinedCard : Card :=
  { id := 0, baseId := 0, hanzi := "", pinyin := "", english := "" }

/-- The `useState` state of the `HanziTrainer` component: `cards`, `idx`,
`showAnswer`, `clearSignal`. -/
structure TrainerState where
  cards : List Card
  idx : Nat
  showAnswer : Bool
  clearSignal : Nat
deriving DecidableEq, Repr

/-- Embeds `textToCards`: one `Card` per `Vocab`, with two fresh ids drawn
from the counter (`uuid()` twice per card). -/
def textToCards : List Vocab → Nat → List Card
  | [], _ => []
  | v :: rest, n =>
    { id := n, baseId := n + 1,
      hanzi := v.hanzi, pinyin := v.pinyin, english := v.english }
      :: textToCards rest (n + 2)

/-- JS `\s` code points (the regex `/[\s　]/g`; `　` is already in
`\s`, the source lists it again explicitly). -/
def jsWhitespaceCodes : List Nat :=
  [0x9, 0xA, 0xB, 0xC, 0xD, 0x20, 0xA0, 0x1680,
   0x2000, 0x2001, 0x2002, 0x2003, 0x2004, 0x2005, 0x2006, 0x2007,
   0x2008, 0x2009, 0x200A, 0x2028, 0x2029, 0x202F, 0x205F, 0x3000, 0xFEFF]

/-- Whether a character matches the source's whitespace-stripping regex. -/
def isJsSpace (c : Char) : Bool :=
  jsWhitespaceCodes.contains c.toNat

/-- Embeds `splitHanziToChars`: strip whitespace, split the cleaned text
into single-character units (`Array.from` splits by code point, which for
the CJK data coincides with the `Intl.Segmenter` grapheme path; Lean
`Char` is a unicode scalar value), take the first `max` units and pad
with `""` up to `max`. The `if (!text)` early return fires exactly on the
empty string. -/
def splitHanziToChars (text : String) (max : Nat := 4) : List String :=
  if text = "" then List.replicate max ""
  else
    let clean := text.toList.filter (fun c => ¬ isJsSpace c)
    let units := clean.map (fun c => String.singleton c)
    let first := units.take max
    first ++ List.replicate (max - first.length) ""

/-- Embeds the `while` loop of `fitFontSize` with explicit fuel. Each
iteration requires `size > 12` and shrinks `size` by 2, so
`fuel = size.toNat + 1` (supplied by `fitFontSize`) is never exhausted;
`fitLoop_fuel_irrel` below proves the fuel choice is irrelevant once
sufficient. `limW = boxW - 2*padding`, `limH = boxH - 2*padding`. -/
def fitLoop (measure : Int → Int) (limW limH : Int) : Nat → Int → Int
  | 0, size => size
  | fuel + 1, size =>
    if (measure size > limW ∨ size > limH) ∧ size > 12 then
      fitLoop measure limW limH fuel (size - 2)
    else size

/-- Embeds `fitFontSize`: initial candidate
`max(12, floor(min(boxW, boxH) - 2*padding))` (on `Int`, `floor` is the
identity), then the shrink loop. -/
def fitFontSize (measure : Int → Int) (boxW boxH padding : Int) : Int :=
  let size := max 12 (min boxW boxH - 2 * padding)
  fitLoop measure (boxW - 2 * padding) (boxH - 2 * padding) (size.toNat + 1) size

/-- Embeds `goLeft` in `MultiCanvas`: `setSlot((s) => (s + 3) % 4)`. -/
def goLeft (s : Nat) : Nat := (s + 3) % 4

/-- Embeds `goRight` in `MultiCanvas`: `setSlot((s) => (s + 1) % 4)`. -/
def goRight (s : Nat) : Nat := (s + 1) % 4

/-- Embeds `next`:
`setIdx((i) => Math.min(i + 1, cards.length))` (the clamp uses the
render-time `cards`), `setShowAnswer(false)`, and `clearAllCanvases()`
(one `clearSignal` increment). -/
def next (st : TrainerState) : TrainerState :=
  { st with
    idx := min (st.idx + 1) st.cards.length
    showAnswer := false
    clearSignal := st.clearSignal + 1 }

/-- Embeds `onIncorrect`, with `fresh1`/`fresh2` the two `uuid()` results:
read `cards[idx]`, build the `scheduledShort` and `scheduledEnd` clones,
splice the short clone at `min(idx + 4, copy.length)` (the length at
splice time, before the push), push the end clone, then
`clearAllCanvases()` and `next()` — so `clearSignal` rises by 2 and the
`idx` clamp still uses the stale render-time `cards.length`. -/
def onIncorrect (st : TrainerState) (fresh1 fresh2 : Nat) : TrainerState :=
  let card := st.cards.getD st.idx undefinedCard
  let short : Card := { card with id := fresh1, scheduledShort := true }
  let atEnd : Card := { card with id := fresh2, scheduledEnd := true }
  let insertPos := min (st.idx + 4) st.cards.length
  { st with
    cards := (st.cards.insertIdx insertPos short) ++ [atEnd]
    idx := min (st.idx + 1) st.cards.length
    showAnswer := false
    clearSignal := st.clearSignal + 2 }

/-- One step of the destructuring swap
`[copy[i], copy[j]] = [copy[j], copy[i]]`; out-of-range indices (which the
shuffle loop never produces) leave the list unchanged. -/
def listSwap (l : List α) (i j : Nat) : List α :=
  match l.get? i, l.get? j with
  | some x, some y => (l.set i y).set j x
  | _, _ => l

/-- The countdown loop of `shuffle`
(`for (let i = copy.length - 1; i > 0; i--)`): at loop index `v = i + 1`,
`j = Math.floor(Math.random() * (v + 1))` lands in `[0, v]`, modelled as
`min (picks v) v`. -/
def shuffleAux (picks : Nat → Nat) : List Card → Nat → List Card
  | l, 0 => l
  | l, i + 1 => shuffleAux picks (listSwap l (i + 1) (min (picks (i + 1)) (i + 1))) i

/-- Embeds `shuffle`: Fisher–Yates over a copy of the array. -/
def shuffle (l : List Card) (picks : Nat → Nat) : List Card :=
  shuffleAux picks l (l.length - 1)

/-- Embeds `loadCards` (the restart operation), parameterised by the parsed
vocabulary (`parseCSV2(sampleCSV)` in the source), the random stream and
the fresh-id counter: shuffle one card per record, reset `idx`,
`showAnswer` and `clearSignal`. -/
def loadCards (records : List Vocab) (picks : Nat → Nat) (firstId : Nat) : TrainerState :=
  { cards := shuffle (textToCards records firstId) picks
    idx := 0
    showAnswer := false
    clearSignal := 0 }

/-- A queue is exhausted when the cursor has passed the last item
(`current = cards[idx]` is `undefined`, i.e. `idx = cards.length` under
the invariant `idx ≤ cards.length`). -/
def isExhausted (st : TrainerState) : Prop := st.idx = st.cards.length

instance (st : TrainerState) : Decidable (isExhausted st) :=
  inferInstanceAs (Decidable (st.idx = st.cards.length))

/-- Runs a sequence of gradings (`true` = ✓ Correct = `next`, `false` =
✗ Fout = `onIncorrect`), threading the fresh-id counter. -/
def runGrades : TrainerState → List Bool → Nat → TrainerState
  | st, [], _ => st
  | st, g :: rest, n =>
    runGrades (if g then next st else onIncorrect st n (n + 1)) rest (n + 2)

/-- The `useState` state of `MultiCanvas` plus the observable ink of its
four `DrawCanvas` children: `slot` is the active slot index; `ink i` is
whether slot `i` carries any drawing. `MultiCanvas` is rendered without a
`key`, so this state persists across card changes within a session. -/
structure SurfaceState where
  slot : Nat
  ink : Fin 4 → Bool

/-- The effect hooked on `[clearSignal]`: `refs.forEach((r) => r.current?.clear())`
erases the ink of all four slots, touching nothing else. -/
def clearAllSlots (s : SurfaceState) : SurfaceState :=
  { s with ink := fun _ => false }

/-- The component tree state: the trainer state plus the `MultiCanvas`
surface state. `showGhost` is the prop `showAnswer`; the ghost text of
slot `i` is `splitHanziToChars (cards[idx].hanzi) 4 |>.get i`, both derived,
so only `trainer` and `surface` are stored. -/
structure AppState where
  trainer : TrainerState
  surface : SurfaceState

/-- Grading ✓ Correct at the app level: `next()` runs, and the
`clearSignal` bump fires the clear effect in `MultiCanvas`. The `slot`
state is not written by any of this. -/
def appGradeCorrect (a : AppState) : AppState :=
  { trainer := next a.trainer, surface := clearAllSlots a.surface }

/-- Grading ✗ Fout at the app level: `onIncorrect()` runs, and the
`clearSignal` bumps fire the clear effect in `MultiCanvas`. The `slot`
state is not written by any of this. -/
def appGradeIncorrect (a : AppState) (fresh1 fresh2 : Nat) : AppState :=
  { trainer := onIncorrect a.trainer fresh1 fresh2, surface := clearAllSlots a.surface }

/-- Forgets the ids of a card, recovering the vocabulary record it renders. -/
def cardVocab (c : Card) : Vocab :=
  { hanzi := c.hanzi, pinyin := c.pinyin, english := c.english }

/-- Sample card (`你,nǐ,you` from the sample CSV). -/
def cardNi : Card :=
  { id := 0, baseId := 1, hanzi := "你", pinyin := "nǐ", english := "you" }

/-- Sample card (`好,hǎo,good fine` from the sample CSV). -/
def cardHao : Card :=
  { id := 2, baseId := 3, hanzi := "好", pinyin := "hǎo", english := "good fine" }

/-- A session at its start: two cards, cursor at 0, answer revealed. -/
def twoCardStart : TrainerState :=
  { cards := [cardNi, cardHao], idx := 0, showAnswer := true, clearSignal := 0 }

/-- An exhausted session: one card, cursor past it. -/
def oneCardDone : TrainerState :=
  { cards := [cardNi], idx := 1, showAnswer := false, clearSignal := 3 }

/-- A mid-session app state: the learner has navigated to slot 2 and drawn
on every slot, answer revealed, cursor on the first of two cards. -/
def appMidSession : AppState :=
  { trainer := twoCardStart, surface := { slot := 2, ink := fun _ => true } }

section Helpers

variable {α : Type _}

/-- Replacing the element at `k` while re-consing the old element is a
permutation: `t[k] :: t.set k x` is `x :: t` reordered. -/
theorem get_cons_set_perm (t : List α) :
    ∀ (k : Nat) (h : k < t.length) (x : α),
      List.Perm (t.get ⟨k, h⟩ :: t.set k x) (x :: t) := by
  induction t with
  | nil => intro k h _; exact absurd h (Nat.not_lt_zero k)
  | cons y s ih =>
    intro k h x
    cases k with
    | zero => exact List.Perm.swap x y s
    | succ k =>
      have h2 : k < s.length := Nat.lt_of_succ_lt_succ h
      show List.Perm (s.get ⟨k, h2⟩ :: (y :: s.set k x)) (x :: y :: s)
      exact ((List.Perm.swap y _ _).trans
        (List.Perm.cons y (ih k h2 x))).trans (List.Perm.swap x y s)

/-- Writing `l[j]` at `i` and `l[i]` at `j` permutes `l`. -/
theorem set_set_perm (l : List α) :
    ∀ (i j : Nat) (hi : i < l.length) (hj : j < l.length),
      List.Perm ((l.set i (l.get ⟨j, hj⟩)).set j (l.get ⟨i, hi⟩)) l := by
  induction l with
  | nil => intro i _ hi _; exact absurd hi (Nat.not_lt_zero i)
  | cons a t ih =>
    intro i j hi hj
    cases i with
    | zero =>
      cases j with
      | zero => exact List.Perm.refl (a :: t)
      | succ m =>
        have hm : m < t.length := Nat.lt_of_succ_lt_succ hj
        show List.Perm (t.get ⟨m, hm⟩ :: t.set m a) (a :: t)
        exact get_cons_set_perm t m hm a
    | succ n =>
      cases j with
      | zero =>
        have hn : n < t.length := Nat.lt_of_succ_lt_succ hi
        show List.Perm (t.get ⟨n, hn⟩ :: t.set n a) (a :: t)
        exact get_cons_set_perm t n hn a
      | succ m =>
        have hn : n < t.length := Nat.lt_of_succ_lt_succ hi
        have hm : m < t.length := Nat.lt_of_succ_lt_succ hj
        show List.Perm (a :: (t.set n (t.get ⟨m, hm⟩)).set m (t.get ⟨n, hn⟩)) (a :: t)
        exact List.Perm.cons a (ih n m hn hm)

/-- A destructuring swap permutes the list (at any indices). -/
theorem listSwap_perm (l : List α) (i j : Nat) : List.Perm (listSwap l i j) l := by
  unfold listSwap
  split
  · next x y h1 h2 =>
    obtain ⟨hi, hx⟩ := List.get?_eq_some.mp h1
    obtain ⟨hj, hy⟩ := List.get?_eq_some.mp h2
    rw [← hx, ← hy]
    exact set_set_perm l i j hi hj
  · exact List.Perm.refl l

/-- Every pass of the Fisher–Yates countdown permutes the list. -/
theorem shuffleAux_perm (picks : Nat → Nat) :
    ∀ (n : Nat) (l : List Card), List.Perm (shuffleAux picks l n) l := by
  intro n
  induction n with
  | zero => intro l; exact List.Perm.refl l
  | succ i ih =>
    intro l
    exact (ih _).trans (listSwap_perm l (i + 1) (min (picks (i + 1)) (i + 1)))

/-- The embedded `shuffle` returns a permutation of its input. -/
theorem shuffle_perm (l : List Card) (picks : Nat → Nat) :
    List.Perm (shuffle l picks) l :=
  shuffleAux_perm picks (l.length - 1) l

/-- Forgetting the generated ids, `textToCards` is the identity on records. -/
theorem textToCards_map_vocab :
    ∀ (vs : List Vocab) (n : Nat), (textToCards vs n).map cardVocab = vs := by
  intro vs
  induction vs with
  | nil => intro n; rfl
  | cons v rest ih => intro n; simp [textToCards, cardVocab, ih]

/-- The shrink loop never drops below 11, whatever the fuel. -/
theorem fitLoop_ge (measure : Int → Int) (limW limH : Int) :
    ∀ (fuel : Nat) (size : Int), 11 ≤ size →
      11 ≤ fitLoop measure limW limH fuel size := by
  intro fuel
  induction fuel with
  | zero => intro size h; exact h
  | succ f ih =>
    intro size h
    unfold fitLoop
    split
    · next hc => exact ih (size - 2) (by omega)
    · exact h

/-- Once the size is at or below 12 the loop guard is dead: any fuel
returns the size unchanged. -/
theorem fitLoop_of_le (measure : Int → Int) (limW limH : Int)
    (size : Int) (h : size ≤ 12) :
    ∀ fuel : Nat, fitLoop measure limW limH fuel size = size := by
  intro fuel
  cases fuel with
  | zero => rfl
  | succ f =>
    unfold fitLoop
    rw [if_neg]
    intro hc
    omega

/-- The fuel is irrelevant once it covers the worst-case iteration count
(the loop burns at least 2 of `size - 11` per step), so the explicit fuel
in `fitFontSize` is a faithful rendering of the source's `while`. -/
theorem fitLoop_fuel_eq (measure : Int → Int) (limW limH : Int) :
    ∀ (f g : Nat) (size : Int),
      (size - 11).toNat ≤ 2 * f → (size - 11).toNat ≤ 2 * g →
      fitLoop measure limW limH f size = fitLoop measure limW limH g size := by
  intro f
  induction f with
  | zero =>
    intro g size hf _
    have h : size ≤ 11 := by omega
    rw [fitLoop_of_le measure limW limH size (by omega) 0,
      fitLoop_of_le measure limW limH size (by omega) g]
  | succ f ih =>
    intro g size hf hg
    cases g with
    | zero =>
      have h : size ≤ 11 := by omega
      rw [fitLoop_of_le measure limW limH size (by omega) (f + 1),
        fitLoop_of_le measure limW limH size (by omega) 0]
    | succ g =>
      show fitLoop measure limW limH (f + 1) size = fitLoop measure limW limH (g + 1) size
      unfold fitLoop
      split
      · next hc => exact ih g (size - 2) (by omega) (by omega)
      · rfl

/-- The incorrect-grading handler always grows the queue by 2 (the splice
index is clamped to the length, so the splice inserts, never drops). -/
theorem onIncorrect_cards_length (st : TrainerState) (f1 f2 : Nat) :
    (onIncorrect st f1 f2).cards.length = st.cards.length + 2 := by
  have hle : min (st.idx + 4) st.cards.length ≤ st.cards.length := Nat.min_le_right _ _
  simp [onIncorrect, List.length_insertIdx _ _ hle]

/-- The incorrect-grading handler moves the cursor exactly as `next` does
(the clamp uses the stale pre-splice length). -/
theorem onIncorrect_idx (st : TrainerState) (f1 f2 : Nat) :
    (onIncorrect st f1 f2).idx = min (st.idx + 1) st.cards.length := rfl

/-- All-correct gradings leave the queue untouched and push the cursor,
clamped at the length. -/
theorem runGrades_all_correct :
    ∀ (m : Nat) (st : TrainerState) (n : Nat), st.idx ≤ st.cards.length →
      (runGrades st (List.replicate m true) n).cards = st.cards
      ∧ (runGrades st (List.replicate m true) n).idx
          = min (st.idx + m) st.cards.length := by
  intro m
  induction m with
  | zero =>
    intro st n h
    refine ⟨rfl, ?_⟩
    show st.idx = min (st.idx + 0) st.cards.length
    omega
  | succ m ih =>
    intro st n h
    rw [List.replicate_succ]
    show (runGrades (next st) (List.replicate m true) (n + 2)).cards = st.cards
      ∧ (runGrades (next st) (List.replicate m true) (n + 2)).idx
          = min (st.idx + (m + 1)) st.cards.length
    have hnext : (next st).idx ≤ (next st).cards.length := by
      simp [next]
    obtain ⟨h1, h2⟩ := ih (next st) (n + 2) hnext
    refine ⟨h1, ?_⟩
    rw [h2]
    show min (min (st.idx + 1) st.cards.length + m) st.cards.length
      = min (st.idx + (m + 1)) st.cards.length
    omega

/-- While the cursor stays inside the queue, every grading advances it by
exactly 1 and every incorrect grading adds exactly 2 items. -/
theorem runGrades_progress :
    ∀ (gs : List Bool) (st : TrainerState) (n : Nat),
      st.idx + gs.length ≤ st.cards.length →
      (runGrades st gs n).idx = st.idx + gs.length
      ∧ (runGrades st gs n).cards.length
          = st.cards.length + 2 * (gs.count false) := by
  intro gs
  induction gs with
  | nil =>
    intro st n _
    exact ⟨by simp [runGrades], by simp [runGrades]⟩
  | cons g rest ih =>
    intro st n h
    have hl : rest.length + 1 = (g :: rest).length := rfl
    cases g with
    | true =>
      show (runGrades (next st) rest (n + 2)).idx = st.idx + (rest.length + 1)
        ∧ (runGrades (next st) rest (n + 2)).cards.length
            = st.cards.length + 2 * ((true :: rest).count false)
      have hidx : (next st).idx = st.idx + 1 := by
        show min (st.idx + 1) st.cards.length = st.idx + 1
        simp at h
        omega
      have hcards : (next st).cards = st.cards := rfl
      obtain ⟨h1, h2⟩ := ih (next st) (n + 2) (by rw [hidx, hcards]; simp at h ⊢; omega)
      constructor
      · rw [h1, hidx]; omega
      · rw [h2, hcards]
        have : (true :: rest).count false = rest.count false := by
          simp [List.count_cons]
        rw [this]
    | false =>
      show (runGrades (onIncorrect st n (n + 1)) rest (n + 2)).idx
            = st.idx + (rest.length + 1)
        ∧ (runGrades (onIncorrect st n (n + 1)) rest (n + 2)).cards.length
            = st.cards.length + 2 * ((false :: rest).count false)
      have hidx : (onIncorrect st n (n + 1)).idx = st.idx + 1 := by
        rw [onIncorrect_idx]
        simp at h
        omega
      have hlen : (onIncorrect st n (n + 1)).cards.length = st.cards.length + 2 :=
        onIncorrect_cards_length st n (n + 1)
      obtain ⟨h1, h2⟩ := ih (onIncorrect st n (n + 1)) (n + 2)
        (by rw [hidx, hlen]; simp at h ⊢; omega)
      constructor
      · rw [h1, hidx]; omega
      · rw [h2, hlen]
        have : (false :: rest).count false = rest.count false + 1 := by
          simp [List.count_cons]
        rw [this]
        ring

end Helpers

/-- C1: for every non-exhausted queue state (`idx < cards.length`), the
incorrect-grading handler grows the queue by exactly 2 (one `scheduledShort`
clone spliced in, one `scheduledEnd` clone pushed) and advances the cursor
by exactly 1. -/
theorem claim1_onIncorrect_growth (st : TrainerState) (f1 f2 : Nat)
    (h : st.idx < st.cards.length) :
    (onIncorrect st f1 f2).cards.length = st.cards.length + 2
    ∧ (onIncorrect st f1 f2).idx = st.idx + 1 := by
  refine ⟨onIncorrect_cards_length st f1 f2, ?_⟩
  rw [onIncorrect_idx]
  omega

/-- Witness for C1 at a concrete two-card state. -/
theorem claim1_witness :
    twoCardStart.idx < twoCardStart.cards.length
    ∧ ((onIncorrect twoCardStart 10 11).cards.length = twoCardStart.cards.length + 2
      ∧ (onIncorrect twoCardStart 10 11).idx = twoCardStart.idx + 1) :=
  ⟨by decide, claim1_onIncorrect_growth twoCardStart 10 11 (by decide)⟩

/-- C2: for every non-exhausted queue state, the `scheduledShort` clone sits
at index `min (idx + 4) length` of the resulting queue, where `length` is
the queue length at splice time (before the end-append), and the
`scheduledEnd` clone is the last element immediately after the operation. -/
theorem claim2_onIncorrect_placement (st : TrainerState) (f1 f2 : Nat)
    (h : st.idx < st.cards.length) :
    (onIncorrect st f1 f2).cards.get? (min (st.idx + 4) st.cards.length)
      = some { st.cards.getD st.idx undefinedCard with id := f1, scheduledShort := true }
    ∧ (onIncorrect st f1 f2).cards.getLast?
      = some { st.cards.getD st.idx undefinedCard with id := f2, scheduledEnd := true } := by
  have hle : min (st.idx + 4) st.cards.length ≤ st.cards.length := Nat.min_le_right _ _
  have hlen : (st.cards.insertIdx (min (st.idx + 4) st.cards.length)
      { st.cards.getD st.idx undefinedCard with id := f1, scheduledShort := true }).length
      = st.cards.length + 1 := List.length_insertIdx _ _ hle
  constructor
  · show ((st.cards.insertIdx (min (st.idx + 4) st.cards.length)
        { st.cards.getD st.idx undefinedCard with id := f1, scheduledShort := true })
        ++ [{ st.cards.getD st.idx undefinedCard with id := f2, scheduledEnd := true }]).get?
          (min (st.idx + 4) st.cards.length)
      = some { st.cards.getD st.idx undefinedCard with id := f1, scheduledShort := true }
    rw [List.get?_eq_getElem?]
    rw [List.getElem?_append_left (by omega)]
    rw [List.getElem?_eq_getElem (by omega)]
    rw [List.getElem_insertIdx_self _ _ _ hle]
  · show ((st.cards.insertIdx (min (st.idx + 4) st.cards.length)
        { st.cards.getD st.idx undefinedCard with id := f1, scheduledShort := true })
        ++ [{ st.cards.getD st.idx undefinedCard with id := f2, scheduledEnd := true }]).getLast?
      = some { st.cards.getD st.idx undefinedCard with id := f2, scheduledEnd := true }
    simp

/-- Witness for C2 at a concrete two-card state. -/
theorem claim2_witness :
    twoCardStart.idx < twoCardStart.cards.length
    ∧ ((onIncorrect twoCardStart 12 13).cards.get?
          (min (twoCardStart.idx + 4) twoCardStart.cards.length)
        = some { twoCardStart.cards.getD twoCardStart.idx undefinedCard with
                  id := 12, scheduledShort := true }
      ∧ (onIncorrect twoCardStart 12 13).cards.getLast?
        = some { twoCardStart.cards.getD twoCardStart.idx undefinedCard with
                  id := 13, scheduledEnd := true }) :=
  ⟨by decide, claim2_onIncorrect_placement twoCardStart 12 13 (by decide)⟩

/-- C5: for every non-exhausted queue state, the correct-grading handler
advances the cursor by exactly 1 and leaves the queue sequence unchanged. -/
theorem claim5_next_frame (st : TrainerState) (h : st.idx < st.cards.length) :
    (next st).idx = st.idx + 1 ∧ (next st).cards = st.cards := by
  refine ⟨?_, rfl⟩
  show min (st.idx + 1) st.cards.length = st.idx + 1
  omega

/-- Witness for C5 at a concrete two-card state. -/
theorem claim5_witness :
    twoCardStart.idx < twoCardStart.cards.length
    ∧ ((next twoCardStart).idx = twoCardStart.idx + 1
      ∧ (next twoCardStart).cards = twoCardStart.cards) :=
  ⟨by decide, claim5_next_frame twoCardStart (by decide)⟩

/-- C6 counterexample: on the exhausted state `oneCardDone`
(`idx = length = 1`) the incorrect-grading handler is not a no-op — it
changes the queue contents (two clone items of the missing card are
added), refuting the claim that both handlers leave the queue unchanged
when exhausted. -/
theorem claim6_counterexample :
    isExhausted oneCardDone
    ∧ (onIncorrect oneCardDone 10 11).cards ≠ oneCardDone.cards := by
  constructor
  · decide
  · decide

/-- C6 (amended): on an already-exhausted queue, the correct-grading
handler is a no-op on position and queue; the incorrect-grading handler
(unreachable from the UI in that state, which renders only the restart
view) leaves the position unchanged but still appends two clone items. -/
theorem claim6_exhausted_behavior (st : TrainerState) (f1 f2 : Nat)
    (h : isExhausted st) :
    (next st).cards = st.cards ∧ (next st).idx = st.idx
    ∧ (onIncorrect st f1 f2).idx = st.idx
    ∧ (onIncorrect st f1 f2).cards.length = st.cards.length + 2 := by
  have hh : st.idx = st.cards.length := h
  refine ⟨rfl, ?_, ?_, onIncorrect_cards_length st f1 f2⟩
  · show min (st.idx + 1) st.cards.length = st.idx
    omega
  · rw [onIncorrect_idx]
    omega

/-- Witness for the amended C6 at a concrete exhausted state. -/
theorem claim6_witness :
    isExhausted oneCardDone
    ∧ ((next oneCardDone).cards = oneCardDone.cards
      ∧ (next oneCardDone).idx = oneCardDone.idx
      ∧ (onIncorrect oneCardDone 14 15).idx = oneCardDone.idx
      ∧ (onIncorrect oneCardDone 14 15).cards.length = oneCardDone.cards.length + 2) :=
  ⟨by decide, claim6_exhausted_behavior oneCardDone 14 15 (by decide)⟩

/-- C3 counterexample: grading ✓ Correct on `appMidSession` advances the
card (the cursor moves from 0 to 1) but the active slot index stays 2 —
`MultiCanvas` holds `slot` in its own `useState` and nothing resets it on
a card change, refuting the claim that `resetForNewCard` sets it to 0. -/
theorem claim3_counterexample :
    (appGradeCorrect appMidSession).trainer.idx ≠ appMidSession.trainer.idx
    ∧ (appGradeCorrect appMidSession).surface.slot ≠ 0 := by
  constructor
  · decide
  · decide

/-- C3 (amended): when a grading advances the card, the surface clears the
ink of all four slots and the ghost is hidden (`showAnswer := false`), but
the active slot index is left unchanged — it persists across card changes
within a session. -/
theorem claim3_card_change_surface (a : AppState) (f1 f2 : Nat) :
    (appGradeCorrect a).surface.ink = (fun _ => false)
    ∧ (appGradeCorrect a).trainer.showAnswer = false
    ∧ (appGradeCorrect a).surface.slot = a.surface.slot
    ∧ (appGradeIncorrect a f1 f2).surface.ink = (fun _ => false)
    ∧ (appGradeIncorrect a f1 f2).trainer.showAnswer = false
    ∧ (appGradeIncorrect a f1 f2).surface.slot = a.surface.slot :=
  ⟨rfl, rfl, rfl, rfl, rfl, rfl⟩

/-- C4 counterexample: with an odd initial candidate
(`min 45 45 - 2*16 = 13`) and text that never fits, the loop steps from 13
to 11 and stops, returning a size strictly below the claimed 12 floor. -/
theorem claim4_counterexample :
    fitFontSize (fun _ => 100) 45 45 16 < 12 := by
  decide

/-- C4 (amended): for every box, padding and deterministic measure
function, the sizer never fails and returns at least 11; it bottoms out
one shrink step below the 12px floor when the initial candidate is odd,
at 12 otherwise. -/
theorem claim4_sizer_floor (measure : Int → Int) (boxW boxH padding : Int) :
    11 ≤ fitFontSize measure boxW boxH padding := by
  unfold fitFontSize
  exact fitLoop_ge _ _ _ _ _ (le_trans (by norm_num) (le_max_left 12 _))

/-- C7: the segmenter always returns exactly `max` units, is total, maps
the empty string to `max` empty units, pads short words and strips
whitespace (the two concrete cases are the source's own console tests). -/
theorem claim7_segment_total (text : String) (max : Nat) :
    (splitHanziToChars text max).length = max
    ∧ splitHanziToChars "" max = List.replicate max ""
    ∧ splitHanziToChars "你好" 4 = ["你", "好", "", ""]
    ∧ splitHanziToChars "中 国" 4 = ["中", "国", "", ""] := by
  refine ⟨?_, by simp [splitHanziToChars], by decide, by decide⟩
  unfold splitHanziToChars
  split
  · simp
  · simp only [List.length_append, List.length_take, List.length_replicate,
      List.length_map]
    omega

/-- C8 counterexample: exhaustion is not exited only by restart — the
incorrect-grading handler (not reachable from the UI when exhausted, but a
scheduler operation nonetheless) applied to the exhausted `oneCardDone`
grows the queue past the cursor, leaving exhaustion without a restart. -/
theorem claim8_counterexample :
    isExhausted oneCardDone
    ∧ ¬ isExhausted (onIncorrect oneCardDone 20 21) := by
  constructor
  · decide
  · decide

/-- C8 (amended): a queue of `k` cards reaches exhaustion after exactly `k`
all-correct gradings and not before; after `k` gradings containing at
least one incorrect one it is not yet exhausted; exhaustion is
`idx = length` and the correct-grading handler preserves it (the
incorrect-grading handler, unreachable from the UI when exhausted, would
exit it by growing the queue). -/
theorem claim8_exhaustion_counts (st : TrainerState) (k n : Nat)
    (h0 : st.idx = 0) (hk : st.cards.length = k) :
    isExhausted (runGrades st (List.replicate k true) n)
    ∧ (∀ m, m < k → ¬ isExhausted (runGrades st (List.replicate m true) n))
    ∧ (∀ (gs : List Bool) (n2 : Nat), gs.length = k → false ∈ gs →
        ¬ isExhausted (runGrades st gs n2))
    ∧ (∀ st2 : TrainerState, isExhausted st2 → isExhausted (next st2)) := by
  have hle : st.idx ≤ st.cards.length := by omega
  refine ⟨?_, ?_, ?_, ?_⟩
  · obtain ⟨h1, h2⟩ := runGrades_all_correct k st n hle
    simp only [isExhausted]
    rw [h1, h2]
    omega
  · intro m hm
    obtain ⟨h1, h2⟩ := runGrades_all_correct m st n hle
    simp only [isExhausted]
    rw [h1, h2]
    omega
  · intro gs n2 hgl hmem
    obtain ⟨h1, h2⟩ := runGrades_progress gs st n2 (by omega)
    simp only [isExhausted]
    rw [h1, h2]
    have hcount : 0 < gs.count false := List.count_pos_iff.mpr hmem
    omega
  · intro st2 h2
    have hh : st2.idx = st2.cards.length := h2
    show min (st2.idx + 1) st2.cards.length = st2.cards.length
    omega

/-- Witness for the amended C8 at a concrete two-card state. -/
theorem claim8_witness :
    twoCardStart.idx = 0 ∧ twoCardStart.cards.length = 2
    ∧ (isExhausted (runGrades twoCardStart (List.replicate 2 true) 100)
      ∧ (∀ m, m < 2 →
          ¬ isExhausted (runGrades twoCardStart (List.replicate m true) 100))
      ∧ (∀ (gs : List Bool) (n2 : Nat), gs.length = 2 → false ∈ gs →
          ¬ isExhausted (runGrades twoCardStart gs n2))
      ∧ (∀ st2 : TrainerState, isExhausted st2 → isExhausted (next st2))) :=
  ⟨rfl, rfl, claim8_exhaustion_counts twoCardStart 2 100 rfl rfl⟩

/-- C9: restarting from any record list yields position 0 and a queue that
is, record-wise, a permutation of the records (exactly one card per
record), with the same length; and the multiset of `baseId`s is the same
whatever the random stream — the set is deterministic, only the order is
random. -/
theorem claim9_restart (records : List Vocab) (picks picks2 : Nat → Nat)
    (firstId : Nat) :
    (loadCards records picks firstId).idx = 0
    ∧ List.Perm ((loadCards records picks firstId).cards.map cardVocab) records
    ∧ (loadCards records picks firstId).cards.length = records.length
    ∧ List.Perm ((loadCards records picks firstId).cards.map Card.baseId)
        ((loadCards records picks2 firstId).cards.map Card.baseId) := by
  have p1 := shuffle_perm (textToCards records firstId) picks
  have p2 := shuffle_perm (textToCards records firstId) picks2
  refine ⟨rfl, ?_, ?_, ?_⟩
  · have hmap := p1.map cardVocab
    rw [textToCards_map_vocab records firstId] at hmap
    exact hmap
  · have hlen := congrArg List.length (textToCards_map_vocab records firstId)
    rw [List.length_map] at hlen
    exact p1.length_eq.trans hlen
  · exact (p1.map Card.baseId).trans ((p2.map Card.baseId).symm)

/-- C10: slot navigation is `(i + 3) % 4` to the left and `(i + 1) % 4` to
the right, always landing back in `{0, 1, 2, 3}`, with wraparound from 0
to 3 on the left and from 3 to 0 on the right. -/
theorem claim10_navigation (i : Nat) (h : i < 4) :
    goLeft i = (i + 3) % 4 ∧ goRight i = (i + 1) % 4
    ∧ goLeft i < 4 ∧ goRight i < 4
    ∧ goLeft 0 = 3 ∧ goRight 3 = 0 :=
  ⟨rfl, rfl, Nat.mod_lt _ (by omega), Nat.mod_lt _ (by omega), rfl, rfl⟩

/-- Witness for C10 at slot 0. -/
theorem claim10_witness :
    0 < 4 ∧ (goLeft 0 = (0 + 3) % 4 ∧ goRight 0 = (0 + 1) % 4
      ∧ goLeft 0 < 4 ∧ goRight 0 < 4
      ∧ goLeft 0 = 3 ∧ goRight 3 = 0) :=
  ⟨by decide, claim10_navigation 0 (by decide)⟩

end HanziTrainer
